import Mathlib

/-!
# Verification of the MITK scene persistence engine (`mitk::SceneIO`)

Shallow embedding of `Modules/SceneSerialization/src/mitkSceneIO.cpp`:
`CreateEmptyTempDirectory`, `SaveScene`, `SaveBaseData`, `SavePropertyList`,
`LoadScene`, `LoadSceneUnzipped`, together with theorems checking the
natural-language specification of the scene persistence engine.

External collaborators (Poco file system calls, the ITK object factory, the
per-type serializers, TinyXML, the zip codec) are modelled as environment
records whose fields give the outcome of each external call; the control flow
around them is translated directly from the C++ source.
-/

namespace SceneIO

/-! ## Data model -/

/-- A property list (`mitk::PropertyList`): named key/value entries. -/
structure PropertyList where
  entries : List (String × String)
deriving DecidableEq, Repr

/-- `mitk::PropertyList::IsEmpty`. -/
def PropertyList.isEmpty (pl : PropertyList) : Bool :=
  pl.entries.isEmpty

/-- A data payload (`mitk::BaseData`): a declared class name
(`GetNameOfClass`) and the payload's own property list (`GetPropertyList`). -/
structure DataPayload where
  typeName : String
  propertyList : PropertyList
deriving DecidableEq, Repr

/-- A scene node (`mitk::DataNode`).  `nodeId` stands for the node's object
identity (the pointer value): two distinct live nodes never compare equal. -/
structure DataNode where
  nodeId : Nat
  name : String
  data : Option DataPayload
  nodeProps : PropertyList
  renderProps : List (String × PropertyList)
deriving DecidableEq, Repr

/-- A data storage (`mitk::DataStorage`): the contained nodes and the
direct-predecessor lookup `GetSources`. -/
structure Storage where
  nodes : List DataNode
  getSources : DataNode → List DataNode

/-! ## Identifier generation

The counter-based UID state of a save pass.  `mitk::UIDGenerator` itself is
not part of the repository snapshot. -/

/-- Decimal digit character. -/
def digitCh : Nat → Char
  | 0 => '0' | 1 => '1' | 2 => '2' | 3 => '3' | 4 => '4'
  | 5 => '5' | 6 => '6' | 7 => '7' | 8 => '8' | _ => '9'

/-- Decimal digit value (inverse of `digitCh` on digits). -/
def digitVal : Char → Nat
  | '0' => 0 | '1' => 1 | '2' => 2 | '3' => 3 | '4' => 4
  | '5' => 5 | '6' => 6 | '7' => 7 | '8' => 8 | _ => 9

/-- Fuel-driven decimal rendering, most significant digit first, digits
prepended to `acc` (the fuel is an upper bound on the digit count). -/
def natDigitsAux : Nat → Nat → List Char → List Char
  | 0, _, acc => acc
  | fuel + 1, n, acc =>
    if n < 10 then digitCh n :: acc
    else natDigitsAux fuel (n / 10) (digitCh (n % 10) :: acc)

/-- Decimal rendering of a natural number, most significant digit first. -/
def natDigits (n : Nat) : List Char :=
  natDigitsAux (n + 1) n []

/-- Modelled from the spec: `mitk::UIDGenerator` (its source is not in the
repository snapshot).  Per the spec, identifiers are produced from a fixed
prefix plus a counter-based unique part, collision-free within one save pass;
`uidString c` is the identifier generated for counter value `c` by the
`UIDGenerator("OBJECT_")` used in `SaveScene`. -/
def uidString (c : Nat) : String :=
  "OBJECT_" ++ String.mk (natDigits c)

/-! ## Association-list helpers (for `std::map` keyed by node identity) -/

/-- First-match association lookup (`std::map::find`). -/
def lookupA {β : Type} : List (DataNode × β) → DataNode → Option β
  | [], _ => none
  | (k, v) :: rest, n => if k = n then some v else lookupA rest n

/-- `sourceUIDs[node].push_back u`: append `u` to the list stored under
`node`, creating the entry if absent (`std::map::operator[]`). -/
def pushSourceUID : List (DataNode × List String) → DataNode → String →
    List (DataNode × List String)
  | [], n, u => [(n, [u])]
  | (k, l) :: rest, n, u =>
    if k = n then (k, l ++ [u]) :: rest else (k, l) :: pushSourceUID rest n u

/-! ## The UID pass of `SaveScene` (first loop, lines 284–322) -/

/-- State of the first `SaveScene` loop: the `nodeUIDs` map (node ↦ counter
value of its generated UID), the UID generator's counter, and the
`sourceUIDs` map (node ↦ UID strings of its in-set predecessors). -/
structure USt where
  uids : List (DataNode × Nat)
  next : Nat
  srcs : List (DataNode × List String)

/-- Initial state of a save pass. -/
def initUSt : USt := ⟨[], 0, []⟩

/-- `if (nodeUIDs[n].empty()) nodeUIDs[n] = nodeUIDGen.GetUID();`
assign a fresh UID to `n` unless one is already recorded. -/
def ensureUID (st : USt) (n : DataNode) : USt :=
  if (lookupA st.uids n).isSome then st
  else { st with uids := st.uids ++ [(n, st.next)], next := st.next + 1 }

/-- One iteration of the inner source loop of the first `SaveScene` loop:
ensure the source `s` has a UID, then push that UID onto `sourceUIDs[node]`. -/
def srcStep (node : DataNode) (acc : USt) (s : DataNode) : USt :=
  let acc1 := ensureUID acc s
  { acc1 with
    srcs := pushSourceUID acc1.srcs node
      (uidString ((lookupA acc1.uids s).getD 0)) }

/-- The inner source loop of the first `SaveScene` loop, over the filtered
source list of `node`. -/
def srcFold (node : DataNode) (st : USt) (ss : List DataNode) : USt :=
  ss.foldl (srcStep node) st

/-- One iteration of the first `SaveScene` loop: skip null nodes; for each
direct source that is itself in `sceneNodes`, ensure the source has a UID and
record that UID in the node's dependency list; finally ensure the node itself
has a UID. -/
def processNode (getSources : DataNode → List DataNode)
    (sceneNodes : List (Option DataNode)) (st : USt) (entry : Option DataNode) :
    USt :=
  match entry with
  | none => st
  | some node =>
    ensureUID
      (srcFold node st ((getSources node).filter
        (fun s => decide (some s ∈ sceneNodes))))
      node

/-- Fold the first `SaveScene` loop over a list of entries, starting from an
arbitrary state (`sceneNodes` is the full node set used for the membership
filter). -/
def uidPassAux (getSources : DataNode → List DataNode)
    (sceneNodes : List (Option DataNode)) (st : USt)
    (entries : List (Option DataNode)) : USt :=
  entries.foldl (processNode getSources sceneNodes) st

/-- The complete first `SaveScene` loop. -/
def uidPass (getSources : DataNode → List DataNode)
    (sceneNodes : List (Option DataNode)) : USt :=
  uidPassAux getSources sceneNodes initUSt sceneNodes

/-! ## Serializer discovery and `SaveBaseData` (lines 472–521) -/

/-- One instance returned by `itk::ObjectFactoryBase::CreateAllInstance`:
either it is not a `BaseDataSerializer` (the `dynamic_cast` fails), or it is
one whose `Serialize()` call, given the data and the filename hint, either
throws (`Except.error`) or returns the written file name (`Except.ok`). -/
inductive Candidate where
  | notASerializer
  | serializer (run : DataPayload → String → Except String String)

/-- The `dynamic_cast<BaseDataSerializer*>` of a candidate. -/
def candidateRun : Candidate →
    Option (DataPayload → String → Except String String)
  | .notASerializer => none
  | .serializer r => some r

/-- A `<properties>` XML element as produced by `SavePropertyList`:
an optional `file` attribute and an optional `renderwindow` attribute. -/
structure XmlPropsElement where
  fileAttr : Option String
  renderwindow : Option String
deriving DecidableEq, Repr

/-- A `<data>` XML element as produced by `SaveBaseData`: the mandatory
`type` attribute, the optional `file` attribute (set only when serialization
succeeded), and the optional child `<properties>` element for the payload's
own property list. -/
structure XmlDataElement where
  typeAttr : String
  fileAttr : Option String
  dataProps : Option XmlPropsElement
deriving DecidableEq, Repr

/-- A `<node>` XML element of the index document: optional `UID` attribute,
`<source>` child UIDs, optional `<data>` child, `<properties>` children for
render-window lists, and the optional node-level `<properties>` child. -/
structure NodeElement where
  uid : Option String
  sourceUIDs : List String
  dataElement : Option XmlDataElement
  renderPropElements : List XmlPropsElement
  nodePropElement : Option XmlPropsElement
deriving DecidableEq, Repr

/-- `mitk::SceneIO::SaveBaseData`: build the `<data>` element with the type
attribute; look up all serializer candidates for `<TypeName>Serializer`; the
first candidate that casts to a serializer is run (then `break`): on success
the `file` attribute is set and the error flag cleared, on a thrown exception
neither happens.  Returns the element and the error flag. -/
def SaveBaseData (createAllInstance : String → List Candidate)
    (data : DataPayload) (filenamehint : String) : XmlDataElement × Bool :=
  let cands := createAllInstance (data.typeName ++ "Serializer")
  match cands.findSome? candidateRun with
  | some run =>
    match run data filenamehint with
    | .ok writtenfilename =>
      ({ typeAttr := data.typeName, fileAttr := some writtenfilename,
         dataProps := none }, false)
    | .error _ =>
      ({ typeAttr := data.typeName, fileAttr := none, dataProps := none },
       true)
  | none =>
    ({ typeAttr := data.typeName, fileAttr := none, dataProps := none }, true)

/-- Whether serialization of a payload fails (no castable candidate, or the
first castable candidate throws): the error flag of `SaveBaseData`. -/
def serializeFails (createAllInstance : String → List Candidate)
    (data : DataPayload) (filenamehint : String) : Bool :=
  (SaveBaseData createAllInstance data filenamehint).2

/-! ## Environments for the external calls of a save pass -/

/-- Outcome of one `Poco::File::createDirectory` call. -/
inductive CreateResult where
  | created
  | alreadyExists
  | throws
deriving DecidableEq, Repr

/-- Environment of `CreateEmptyTempDirectory`: the platform temp root
(`Poco::Path::temp()`), the option directory
(`StandardFileLocations::GetOptionDirectory()`), the two UIDs drawn from the
`UIDGenerator("UID_", 6)`, the path separator, and the file system's answer
to each `createDirectory` call. -/
structure TempDirEnv where
  tempRoot : String
  optionDir : String
  uid1 : String
  uid2 : String
  sep : String
  createDirectory : String → CreateResult

/-- `mitk::SceneIO::CreateEmptyTempDirectory` (lines 49–82): pick
`temp()/SceneIOTemp<uid>`; if `createDirectory` reports the directory already
exists, fall back to `<optionDir>/SceneIOTempDirectory<uid>` and try once
more (a second collision is only logged); any thrown exception yields the
empty string (the failure value). -/
def CreateEmptyTempDirectory (env : TempDirEnv) : String :=
  let returnValue := env.tempRoot ++ "SceneIOTemp" ++ env.uid1
  let uniquename := returnValue ++ env.sep
  match env.createDirectory uniquename with
  | .throws => ""
  | .created => returnValue
  | .alreadyExists =>
    let returnValue2 := env.optionDir ++ env.sep ++ "SceneIOTempDirectory"
      ++ env.uid2
    let uniquename2 := returnValue2 ++ env.sep
    match env.createDirectory uniquename2 with
    | .throws => ""
    | _ => returnValue2

/-- Environment of a save pass: serializer discovery
(`itk::ObjectFactoryBase::CreateAllInstance`), the property-list serializer
(result: written file name plus the optional failed-properties list, or a
thrown exception), the temp-directory environment, and the outcomes of the
manifest write (`TiXmlDocument::SaveFile`), the deletion of a pre-existing
destination file, the opening of the destination zip stream, the zip packing,
and the staging-directory removal. -/
structure SaveEnv where
  createAllInstance : String → List Candidate
  serializePropertyList : String → PropertyList →
    Except String (String × Option PropertyList)
  tempDir : TempDirEnv
  saveFileOk : Bool
  deleteDestThrows : Bool
  zipOpenOk : Bool
  zipThrows : Bool
  stagingDeleteOk : Bool

/-- `mitk::SceneIO::SavePropertyList` (lines 523–554): always returns a
`<properties>` element; on success it carries the `file` attribute and the
serializer's failed properties are concatenated onto the global accumulator;
on a thrown exception the element stays without `file` and nothing is
accumulated. -/
def SavePropertyList (env : SaveEnv) (propertyList : PropertyList)
    (filenamehint : String) : XmlPropsElement × List (String × String) :=
  match env.serializePropertyList filenamehint propertyList with
  | .ok (writtenfilename, failed) =>
    ({ fileAttr := some writtenfilename, renderwindow := none },
     (failed.map PropertyList.entries).getD [])
  | .error _ => ({ fileAttr := none, renderwindow := none }, [])

/-- `itksys::SystemTools::MakeCindentifier`: keep `[A-Za-z0-9_]`, replace
every other character with `_`, prepend `_` when the name starts with a
digit. -/
def makeCIdentifier (s : String) : String :=
  let t := String.mk (s.data.map (fun c => if c.isAlphanum then c else '_'))
  match s.data with
  | c :: _ => if c.isDigit then "_" ++ t else t
  | [] => t

/-! ## The writing pass of `SaveScene` (second loop, lines 324–411) -/

/-- Per-node body of the second `SaveScene` loop: build the `<node>` element
(UID attribute from `nodeUIDs`, `<source>` children from `sourceUIDs`,
`<data>` child via `SaveBaseData` plus the payload's property list,
`<properties>` children for each non-empty render-window list and for the
non-empty node list).  Returns the element, the data error flag (whether the
node goes to `m_FailedNodes`), and the properties appended to
`m_FailedProperties`. -/
def writeNode (env : SaveEnv) (ust : USt) (node : DataNode) :
    NodeElement × Bool × List (String × String) :=
  let hint := makeCIdentifier node.name
  let uidAttr := (lookupA ust.uids node).map uidString
  let srcList := (lookupA ust.srcs node).getD []
  let dataPart : Option XmlDataElement × Bool × List (String × String) :=
    match node.data with
    | none => (none, false, [])
    | some d =>
      let de := SaveBaseData env.createAllInstance d hint
      if d.propertyList.isEmpty then (some de.1, de.2, [])
      else
        let pe := SavePropertyList env d.propertyList (hint ++ "-data")
        (some { de.1 with dataProps := some pe.1 }, de.2, pe.2)
  let renderPart : List XmlPropsElement × List (String × String) :=
    node.renderProps.foldl
      (fun acc p =>
        if p.2.isEmpty then acc
        else
          let pe := SavePropertyList env p.2 (hint ++ "-" ++ p.1)
          (acc.1 ++ [{ pe.1 with renderwindow := some p.1 }], acc.2 ++ pe.2))
      ([], [])
  let nodePart : Option XmlPropsElement × List (String × String) :=
    if node.nodeProps.isEmpty then (none, [])
    else
      let pe := SavePropertyList env node.nodeProps (hint ++ "-node")
      (some pe.1, pe.2)
  ({ uid := uidAttr, sourceUIDs := srcList, dataElement := dataPart.1,
     renderPropElements := renderPart.1, nodePropElement := nodePart.1 },
   dataPart.2.1, dataPart.2.2 ++ renderPart.2 ++ nodePart.2)

/-- Accumulated results of the second `SaveScene` loop: the `<node>` elements
linked into the document, `m_FailedNodes`, and `m_FailedProperties`. -/
structure WriteState where
  elements : List NodeElement
  failedNodes : List DataNode
  failedProps : List (String × String)
deriving DecidableEq, Repr

/-- One iteration of the second `SaveScene` loop (null entries are logged and
skipped). -/
def writeStep (env : SaveEnv) (ust : USt) (ws : WriteState)
    (entry : Option DataNode) : WriteState :=
  match entry with
  | none => ws
  | some node =>
    let r := writeNode env ust node
    { elements := ws.elements ++ [r.1],
      failedNodes := ws.failedNodes ++ (if r.2.1 then [node] else []),
      failedProps := ws.failedProps ++ r.2.2 }

/-- The complete second `SaveScene` loop, from freshly reset accumulators. -/
def writePass (env : SaveEnv) (ust : USt)
    (entries : List (Option DataNode)) : WriteState :=
  entries.foldl (writeStep env ust) ⟨[], [], []⟩

/-- Whether a node ends up in `m_FailedNodes`: it carries a payload whose
serialization fails. -/
def nodeFails (env : SaveEnv) (node : DataNode) : Bool :=
  match node.data with
  | some d => serializeFails env.createAllInstance d (makeCIdentifier node.name)
  | none => false

/-- The non-null entries of the node set: the nodes actually persisted. -/
def realNodes (sceneNodes : List (Option DataNode)) : List DataNode :=
  sceneNodes.filterMap id

/-! ## `SaveScene` (lines 217–470) -/

/-- Observable outcome of one `SaveScene` call: the returned `bool`, the
`<node>` elements of the index document, whether the document reached disk,
the two failure accumulators, and the staging directory's fate. -/
structure SaveOutcome where
  returnValue : Bool
  manifest : List NodeElement
  manifestWritten : Bool
  failedNodes : List DataNode
  failedProps : List (String × String)
  stagingCreated : Bool
  stagingDeleteAttempted : Bool
  stagingDeleted : Bool
deriving DecidableEq, Repr

/-- Outcome of the argument-validation failures (and of a staging-creation
failure), before/without staging. -/
def earlySaveFail : SaveOutcome :=
  ⟨false, [], false, [], [], false, false, false⟩

/-- The tail of `SaveScene` after the staging directory exists and the two
loops ran (`ws` is the writing-pass result): write `index.xml` (failure:
return false without touching staging); delete a pre-existing destination
file, open the destination stream and pack the zip (failure or exception:
return false without touching staging); delete the staging directory
(failure: return false); return true. -/
def stagedOutcome (env : SaveEnv) (ws : WriteState) : SaveOutcome :=
  if !env.saveFileOk then
    ⟨false, ws.elements, false, ws.failedNodes, ws.failedProps,
     true, false, false⟩
  else if env.deleteDestThrows then
    ⟨false, ws.elements, true, ws.failedNodes, ws.failedProps,
     true, false, false⟩
  else if !env.zipOpenOk then
    ⟨false, ws.elements, true, ws.failedNodes, ws.failedProps,
     true, false, false⟩
  else if env.zipThrows then
    ⟨false, ws.elements, true, ws.failedNodes, ws.failedProps,
     true, false, false⟩
  else if !env.stagingDeleteOk then
    ⟨false, ws.elements, true, ws.failedNodes, ws.failedProps,
     true, true, false⟩
  else
    ⟨true, ws.elements, true, ws.failedNodes, ws.failedProps,
     true, true, true⟩

/-- `mitk::SceneIO::SaveScene`: validate the arguments (null node set, null
storage, empty filename); create the staging directory (failure: return
false); run the UID pass and the writing pass; finish via `stagedOutcome`. -/
def SaveScene (env : SaveEnv) (sceneNodes : Option (List (Option DataNode)))
    (storage : Option Storage) (filename : String) : SaveOutcome :=
  match sceneNodes, storage with
  | none, _ => earlySaveFail
  | some _, none => earlySaveFail
  | some nodes, some st =>
    if filename.isEmpty then earlySaveFail
    else
      let wd := CreateEmptyTempDirectory env.tempDir
      if wd.isEmpty then earlySaveFail
      else
        stagedOutcome env (writePass env (uidPass st.getSources nodes) nodes)

/-! ## `LoadScene` and `LoadSceneUnzipped` (lines 84–215) -/

/-- Environment of a load pass: the temp-directory environment, whether the
archive file opens for reading, the per-entry unzip error count, whether
`index.xml` parses, what the scene reader reconstructs, and whether the
staging-directory removal succeeds. -/
structure LoadEnv where
  tempDir : TempDirEnv
  fileReadable : Bool
  unzipErrors : Nat
  manifestParses : Bool
  readerNodes : List DataNode
  readerOk : Bool
  stagingDeleteOk : Bool

/-- Ordered milestones of one `LoadSceneUnzipped` call. -/
inductive LoadEvent where
  | clearedStorage
  | parseManifest (ok : Bool)
  | ranReader
deriving DecidableEq, Repr

/-- Modelled from the spec: `mitk::SceneReader::LoadScene` (its source is not
in the repository snapshot).  Per the spec, the reader constructs one scene
node per manifest record and adds it to the storage; a single node failing to
construct is a soft failure (skipped), reflected only in the returned flag.
`readerNodes` is the set of nodes the reader manages to reconstruct. -/
def SceneReader_LoadScene (readerNodes : List DataNode) (readerOk : Bool)
    (storage : Storage) : Storage × Bool :=
  ({ storage with nodes := storage.nodes ++ readerNodes }, readerOk)

/-- Result of `LoadSceneUnzipped`: the returned storage pointer and the
ordered milestones. -/
structure LoadUnzippedResult where
  storage : Option Storage
  events : List LoadEvent

/-- The fresh storage created when the caller passes a null pointer
(`StandaloneDataStorage::New()`). -/
def freshStorage : Storage :=
  { nodes := [], getSources := fun _ => [] }

/-- `mitk::SceneIO::LoadSceneUnzipped` (lines 160–215): substitute a fresh
storage for a null pointer; clear the storage first when asked
(`storage->Remove(storage->GetAll())`); reject an empty index filename; parse
`index.xml` (parse failure: return the storage as is); hand the document to
the scene reader; return the storage in every case. -/
def LoadSceneUnzipped (env : LoadEnv) (indexfilename : String)
    (pStorage : Option Storage) (clearStorageFirst : Bool) :
    LoadUnzippedResult :=
  let storage := pStorage.getD freshStorage
  let cleared :=
    if clearStorageFirst then
      ({ storage with nodes := [] }, [LoadEvent.clearedStorage])
    else (storage, ([] : List LoadEvent))
  if indexfilename.isEmpty then ⟨some cleared.1, cleared.2⟩
  else if !env.manifestParses then
    ⟨some cleared.1, cleared.2 ++ [LoadEvent.parseManifest false]⟩
  else
    let r := SceneReader_LoadScene env.readerNodes env.readerOk cleared.1
    ⟨some r.1, cleared.2 ++ [LoadEvent.parseManifest true,
      LoadEvent.ranReader]⟩

/-- Observable outcome of one `LoadScene` call. -/
structure LoadResult where
  storage : Option Storage
  events : List LoadEvent
  stagingCreated : Bool
  stagingDeleteAttempted : Bool
  stagingDeleted : Bool
  unzipErrors : Nat

/-- `mitk::SceneIO::LoadScene` (lines 84–158): substitute a fresh storage for
a null pointer; reject an empty filename and an unreadable archive (returning
the storage); create the staging directory (failure: return the storage);
unzip counting per-entry errors; delegate to `LoadSceneUnzipped` on
`<staging>/index.xml`; delete the staging directory (a failure is only
logged); return the storage in every case. -/
def LoadScene (env : LoadEnv) (filename : String) (pStorage : Option Storage)
    (clearStorageFirst : Bool) : LoadResult :=
  let storage : Option Storage := some (pStorage.getD freshStorage)
  if filename.isEmpty then ⟨storage, [], false, false, false, 0⟩
  else if !env.fileReadable then ⟨storage, [], false, false, false, 0⟩
  else
    let wd := CreateEmptyTempDirectory env.tempDir
    if wd.isEmpty then ⟨storage, [], false, false, false, 0⟩
    else
      let r := LoadSceneUnzipped env (wd ++ "/index.xml") storage
        clearStorageFirst
      ⟨r.storage, r.events, true, true, env.stagingDeleteOk,
       env.unzipErrors⟩

/-! ## Injectivity of generated identifiers -/

theorem digitVal_digitCh (n : Nat) (h : n < 10) : digitVal (digitCh n) = n := by
  interval_cases n <;> rfl

/-- Decimal decoding, the left inverse of `natDigits`. -/
def undigits (l : List Char) : Nat :=
  l.foldl (fun acc c => acc * 10 + digitVal c) 0

theorem undigits_append_singleton (l : List Char) (c : Char) :
    undigits (l ++ [c]) = undigits l * 10 + digitVal c := by
  simp [undigits, List.foldl_append]

theorem natDigitsAux_fuel (fuel₁ : Nat) : ∀ (fuel₂ n : Nat) (acc : List Char),
    n < fuel₁ → n < fuel₂ →
    natDigitsAux fuel₁ n acc = natDigitsAux fuel₂ n acc := by
  induction fuel₁ with
  | zero => omega
  | succ f₁ ih =>
    intro fuel₂ n acc h₁ h₂
    cases fuel₂ with
    | zero => omega
    | succ f₂ =>
      by_cases h : n < 10
      · simp [natDigitsAux, h]
      · simp only [natDigitsAux, h, if_neg, not_false_iff]
        exact ih f₂ (n / 10) _ (by omega) (by omega)

theorem natDigitsAux_append (fuel : Nat) : ∀ (n : Nat) (acc : List Char),
    n < fuel → natDigitsAux fuel n acc = natDigitsAux fuel n [] ++ acc := by
  induction fuel with
  | zero => omega
  | succ f ih =>
    intro n acc h
    by_cases h10 : n < 10
    · simp [natDigitsAux, h10]
    · simp only [natDigitsAux, h10, if_neg, not_false_iff]
      rw [ih (n / 10) _ (by omega), ih (n / 10) [digitCh (n % 10)] (by omega),
        List.append_assoc]
      rfl

theorem undigits_natDigits (n : Nat) : undigits (natDigits n) = n := by
  induction n using Nat.strong_induction_on with
  | _ n ih =>
    by_cases h : n < 10
    · simp [natDigits, natDigitsAux, h, undigits, digitVal_digitCh n h]
    · have hlt : n / 10 < n := Nat.div_lt_self (by omega) (by omega)
      have hstep : natDigits n
          = natDigits (n / 10) ++ [digitCh (n % 10)] := by
        show natDigitsAux (n + 1) n [] = _
        rw [show natDigitsAux (n + 1) n [] = natDigitsAux n (n / 10)
              [digitCh (n % 10)] by simp [natDigitsAux, h],
          natDigitsAux_fuel n (n / 10 + 1) (n / 10) _ (by omega) (by omega),
          natDigitsAux_append (n / 10 + 1) (n / 10) _ (by omega)]
        rfl
      rw [hstep, undigits_append_singleton, ih (n / 10) hlt,
        digitVal_digitCh (n % 10) (Nat.mod_lt n (by omega))]
      omega

theorem natDigits_injective : Function.Injective natDigits := by
  intro a b h
  have := undigits_natDigits a
  rw [h, undigits_natDigits] at this
  omega

theorem uidString_injective : Function.Injective uidString := by
  intro a b h
  have hdata : ("OBJECT_" ++ String.mk (natDigits a)).data
      = ("OBJECT_" ++ String.mk (natDigits b)).data := by
    rw [show ("OBJECT_" ++ String.mk (natDigits a)) = uidString a from rfl, h]
    rfl
  simp only [String.data_append] at hdata
  exact natDigits_injective (List.append_cancel_left hdata)

/-! ## Association-list lemmas -/

theorem lookupA_eq_none {β : Type} {l : List (DataNode × β)} {n : DataNode} :
    lookupA l n = none ↔ n ∉ l.map Prod.fst := by
  induction l with
  | nil => simp [lookupA]
  | cons p rest ih =>
    by_cases h : p.1 = n
    · simp [lookupA, h]
    · simp [lookupA, h, ih, Ne.symm h]

theorem lookupA_mem {β : Type} {l : List (DataNode × β)} {n : DataNode}
    {v : β} (h : lookupA l n = some v) : (n, v) ∈ l := by
  induction l with
  | nil => simp [lookupA] at h
  | cons p rest ih =>
    obtain ⟨k, w⟩ := p
    by_cases hp : k = n
    · subst hp
      simp only [lookupA, if_pos] at h
      cases h
      exact List.mem_cons_self _ _
    · simp only [lookupA, hp, if_neg, not_false_iff] at h
      exact List.mem_cons_of_mem _ (ih h)

theorem mem_lookupA {β : Type} {l : List (DataNode × β)} {n : DataNode}
    {v : β} (hnd : (l.map Prod.fst).Nodup) (h : (n, v) ∈ l) :
    lookupA l n = some v := by
  induction l with
  | nil => simp at h
  | cons p rest ih =>
    simp only [List.map_cons, List.nodup_cons] at hnd
    rcases List.mem_cons.mp h with h1 | h1
    · rw [← h1]
      simp [lookupA]
    · have hne : p.1 ≠ n := by
        intro he
        exact hnd.1 (he ▸ (List.mem_map.mpr ⟨(n, v), h1, rfl⟩))
      simp only [lookupA, hne, if_neg, not_false_iff]
      exact ih hnd.2 h1

theorem lookupA_append_left {β : Type} {l l' : List (DataNode × β)}
    {n : DataNode} {v : β} (h : lookupA l n = some v) :
    lookupA (l ++ l') n = some v := by
  induction l with
  | nil => simp [lookupA] at h
  | cons p rest ih =>
    by_cases hp : p.1 = n
    · simp only [lookupA, hp, if_pos] at h ⊢
      exact h
    · simp only [lookupA, hp, if_neg, not_false_iff, List.cons_append] at h ⊢
      exact ih h

theorem lookupA_append_right {β : Type} {l l' : List (DataNode × β)}
    {n : DataNode} (h : lookupA l n = none) :
    lookupA (l ++ l') n = lookupA l' n := by
  induction l with
  | nil => rfl
  | cons p rest ih =>
    by_cases hp : p.1 = n
    · simp [lookupA, hp] at h
    · simp only [lookupA, hp, if_neg, not_false_iff, List.cons_append] at h ⊢
      exact ih h

theorem lookupA_extend {β : Type} {l l' : List (DataNode × β)} {n : DataNode}
    {v : β} (hpre : l <+: l') (h : lookupA l n = some v) :
    lookupA l' n = some v := by
  obtain ⟨t, rfl⟩ := hpre
  exact lookupA_append_left h

theorem lookupA_pushSourceUID_ne {l : List (DataNode × List String)}
    {m n : DataNode} (hne : m ≠ n) (u : String) :
    lookupA (pushSourceUID l m u) n = lookupA l n := by
  induction l with
  | nil => simp [pushSourceUID, lookupA, hne]
  | cons p rest ih =>
    obtain ⟨k, w⟩ := p
    by_cases hp : k = m
    · subst hp
      simp [pushSourceUID, lookupA, hne, Ne.symm hne]
    · by_cases hq : k = n
      · simp [pushSourceUID, hp, lookupA, hq, Ne.symm hne]
      · simp [pushSourceUID, hp, lookupA, hq, ih]

theorem lookupA_pushSourceUID_self (l : List (DataNode × List String))
    (n : DataNode) (u : String) :
    lookupA (pushSourceUID l n u) n
      = some ((lookupA l n).getD [] ++ [u]) := by
  induction l with
  | nil => simp [pushSourceUID, lookupA]
  | cons p rest ih =>
    obtain ⟨k, w⟩ := p
    by_cases hp : k = n
    · subst hp
      simp [pushSourceUID, lookupA]
    · simp [pushSourceUID, hp, lookupA, ih]

/-! ## Lemmas on the UID pass -/

theorem ensureUID_srcs (st : USt) (n : DataNode) :
    (ensureUID st n).srcs = st.srcs := by
  unfold ensureUID
  split <;> rfl

theorem ensureUID_uids_extend (st : USt) (n : DataNode) :
    st.uids <+: (ensureUID st n).uids := by
  unfold ensureUID
  split
  · exact List.prefix_refl _
  · exact ⟨[(n, st.next)], rfl⟩

theorem ensureUID_lookup_self (st : USt) (n : DataNode) :
    ∃ c, lookupA (ensureUID st n).uids n = some c := by
  unfold ensureUID
  by_cases h : (lookupA st.uids n).isSome
  · obtain ⟨c, hc⟩ := Option.isSome_iff_exists.mp h
    rw [if_pos h]
    exact ⟨c, hc⟩
  · rw [if_neg h]
    refine ⟨st.next, ?_⟩
    have hn : lookupA st.uids n = none := Option.not_isSome_iff_eq_none.mp h
    rw [lookupA_append_right hn]
    simp [lookupA]

theorem ensureUID_mem_uids {st : USt} {n : DataNode} {p : DataNode × Nat}
    (h : p ∈ (ensureUID st n).uids) : p ∈ st.uids ∨ p = (n, st.next) := by
  unfold ensureUID at h
  split at h
  · exact Or.inl h
  · rcases List.mem_append.mp h with h1 | h1
    · exact Or.inl h1
    · simp only [List.mem_singleton] at h1
      exact Or.inr h1

/-- The invariant of the UID map during a save pass: keys are pairwise
distinct, counter values are pairwise distinct, and all counter values are
below the generator's next counter. -/
def UInv (st : USt) : Prop :=
  (st.uids.map Prod.fst).Nodup ∧ (st.uids.map Prod.snd).Nodup ∧
    ∀ p ∈ st.uids, p.2 < st.next

theorem UInv_init : UInv initUSt := by
  refine ⟨List.nodup_nil, List.nodup_nil, ?_⟩
  intro p hp
  simp [initUSt] at hp

theorem UInv_ensureUID {st : USt} (h : UInv st) (n : DataNode) :
    UInv (ensureUID st n) := by
  unfold ensureUID
  by_cases hl : (lookupA st.uids n).isSome
  · rwa [if_pos hl]
  · rw [if_neg hl]
    obtain ⟨h1, h2, h3⟩ := h
    have hn : n ∉ st.uids.map Prod.fst :=
      lookupA_eq_none.mp (Option.not_isSome_iff_eq_none.mp hl)
    have hc : st.next ∉ st.uids.map Prod.snd := by
      intro hmem
      obtain ⟨p, hp, he⟩ := List.mem_map.mp hmem
      exact absurd (he ▸ h3 p hp) (lt_irrefl _)
    refine ⟨?_, ?_, ?_⟩
    · simpa [List.nodup_append, h1] using hn
    · simpa [List.nodup_append, h2] using hc
    · intro p hp
      rcases List.mem_append.mp hp with h4 | h4
      · exact Nat.lt_succ_of_lt (h3 p h4)
      · simp only [List.mem_singleton] at h4
        subst h4
        exact Nat.lt_succ_self _

theorem srcStep_uids (node : DataNode) (st : USt) (s : DataNode) :
    (srcStep node st s).uids = (ensureUID st s).uids := rfl

theorem srcStep_next (node : DataNode) (st : USt) (s : DataNode) :
    (srcStep node st s).next = (ensureUID st s).next := rfl

theorem UInv_srcStep {st : USt} (h : UInv st) (node s : DataNode) :
    UInv (srcStep node st s) := by
  have := UInv_ensureUID h s
  unfold UInv at this ⊢
  rwa [srcStep_uids, srcStep_next]

theorem srcStep_uids_extend (node : DataNode) (st : USt) (s : DataNode) :
    st.uids <+: (srcStep node st s).uids := by
  rw [srcStep_uids]
  exact ensureUID_uids_extend st s

theorem srcFold_uids_extend (node : DataNode) (st : USt)
    (ss : List DataNode) : st.uids <+: (srcFold node st ss).uids := by
  induction ss generalizing st with
  | nil => exact List.prefix_refl _
  | cons s rest ih =>
    exact (srcStep_uids_extend node st s).trans (ih (srcStep node st s))

theorem UInv_srcFold {st : USt} (h : UInv st) (node : DataNode)
    (ss : List DataNode) : UInv (srcFold node st ss) := by
  induction ss generalizing st with
  | nil => exact h
  | cons s rest ih => exact ih (UInv_srcStep h node s)

theorem srcFold_lookup_some {node s : DataNode} {ss : List DataNode}
    (hs : s ∈ ss) (st : USt) :
    ∃ c, lookupA (srcFold node st ss).uids s = some c := by
  induction ss generalizing st with
  | nil => simp at hs
  | cons t rest ih =>
    rcases List.mem_cons.mp hs with h1 | h1
    · subst h1
      obtain ⟨c, hc⟩ := ensureUID_lookup_self st s
      refine ⟨c, ?_⟩
      have : lookupA (srcStep node st s).uids s = some c := by
        rwa [srcStep_uids]
      exact lookupA_extend (srcFold_uids_extend node _ rest) this
    · exact ih h1 (srcStep node st t)

theorem srcFold_srcs_lookup_ne {node n : DataNode} (hne : node ≠ n)
    (st : USt) (ss : List DataNode) :
    lookupA (srcFold node st ss).srcs n = lookupA st.srcs n := by
  induction ss generalizing st with
  | nil => rfl
  | cons s rest ih =>
    rw [srcFold, List.foldl_cons, ← srcFold, ih]
    show lookupA (pushSourceUID (ensureUID st s).srcs node _) n = _
    rw [lookupA_pushSourceUID_ne hne, ensureUID_srcs]

theorem srcFold_srcs_getD (node : DataNode) (st : USt)
    (ss : List DataNode) :
    (lookupA (srcFold node st ss).srcs node).getD []
      = (lookupA st.srcs node).getD []
        ++ ss.map (fun s =>
            uidString ((lookupA (srcFold node st ss).uids s).getD 0)) := by
  induction ss generalizing st with
  | nil => simp [srcFold]
  | cons s rest ih =>
    rw [srcFold, List.foldl_cons, ← srcFold]
    obtain ⟨c, hc⟩ := ensureUID_lookup_self st s
    have hstep : lookupA (srcStep node st s).srcs node
        = some ((lookupA st.srcs node).getD []
          ++ [uidString ((lookupA (ensureUID st s).uids s).getD 0)]) := by
      show lookupA (pushSourceUID (ensureUID st s).srcs node _) node = _
      rw [lookupA_pushSourceUID_self, ensureUID_srcs]
    have hstable : lookupA (srcFold node (srcStep node st s) rest).uids s
        = some c := by
      refine lookupA_extend (srcFold_uids_extend node _ rest) ?_
      rwa [srcStep_uids]
    rw [ih (srcStep node st s), hstep]
    simp only [Option.getD_some, hc, List.map_cons, hstable]
    rw [List.append_assoc]
    rfl

theorem mem_realNodes {n : DataNode} {L : List (Option DataNode)} :
    n ∈ realNodes L ↔ some n ∈ L := by
  simp [realNodes, List.mem_filterMap, id]

theorem srcStep_mem_uids {st : USt} {node s : DataNode} {p : DataNode × Nat}
    (h : p ∈ (srcStep node st s).uids) : p ∈ st.uids ∨ p.1 = s := by
  rw [srcStep_uids] at h
  rcases ensureUID_mem_uids h with h1 | h1
  · exact Or.inl h1
  · exact Or.inr (by rw [h1])

theorem srcFold_mem_uids {node : DataNode} (st : USt) {ss : List DataNode}
    {p : DataNode × Nat} (h : p ∈ (srcFold node st ss).uids) :
    p ∈ st.uids ∨ p.1 ∈ ss := by
  induction ss generalizing st with
  | nil => exact Or.inl h
  | cons s rest ih =>
    rcases ih (srcStep node st s) h with h1 | h1
    · rcases srcStep_mem_uids h1 with h2 | h2
      · exact Or.inl h2
      · exact Or.inr (by simp [h2])
    · exact Or.inr (List.mem_cons_of_mem _ h1)

/-- Invariant of a save pass: every UID string recorded in some dependency
list is the rendering of a counter value recorded in the UID map. -/
def SrcInv (st : USt) : Prop :=
  ∀ n l, lookupA st.srcs n = some l → ∀ u ∈ l,
    ∃ p, p ∈ st.uids ∧ u = uidString p.2

theorem SrcInv_init : SrcInv initUSt := by
  intro n l h
  simp [initUSt, lookupA] at h

theorem SrcInv_ensureUID {st : USt} (h : SrcInv st) (n : DataNode) :
    SrcInv (ensureUID st n) := by
  intro m l hl u hu
  rw [ensureUID_srcs] at hl
  obtain ⟨p, hp, he⟩ := h m l hl u hu
  exact ⟨p, (ensureUID_uids_extend st n).subset hp, he⟩

theorem SrcInv_srcStep {st : USt} (h : SrcInv st) (node s : DataNode) :
    SrcInv (srcStep node st s) := by
  intro n l hl u hu
  by_cases hne : node = n
  · subst hne
    rw [show (srcStep node st s).srcs = pushSourceUID (ensureUID st s).srcs
        node (uidString ((lookupA (ensureUID st s).uids s).getD 0)) from rfl,
      lookupA_pushSourceUID_self, ensureUID_srcs] at hl
    cases hl
    rcases List.mem_append.mp hu with h1 | h1
    · cases hold : lookupA st.srcs node with
      | none => rw [hold] at h1; simp at h1
      | some l0 =>
        rw [hold] at h1
        simp only [Option.getD_some] at h1
        obtain ⟨p, hp, he⟩ := h node l0 hold u h1
        exact ⟨p, (srcStep_uids_extend node st s).subset hp, he⟩
    · simp only [List.mem_singleton] at h1
      subst h1
      obtain ⟨c, hc⟩ := ensureUID_lookup_self st s
      refine ⟨(s, c), ?_, ?_⟩
      · rw [srcStep_uids]
        exact lookupA_mem hc
      · rw [hc]
        rfl
  · rw [show (srcStep node st s).srcs = pushSourceUID (ensureUID st s).srcs
        node (uidString ((lookupA (ensureUID st s).uids s).getD 0)) from rfl,
      lookupA_pushSourceUID_ne hne, ensureUID_srcs] at hl
    obtain ⟨p, hp, he⟩ := h n l hl u hu
    exact ⟨p, (srcStep_uids_extend node st s).subset hp, he⟩

theorem SrcInv_srcFold {st : USt} (h : SrcInv st) (node : DataNode)
    (ss : List DataNode) : SrcInv (srcFold node st ss) := by
  induction ss generalizing st with
  | nil => exact h
  | cons s rest ih => exact ih (SrcInv_srcStep h node s)

/-! ## Lemmas on `processNode` and `uidPassAux` -/

theorem processNode_none (g : DataNode → List DataNode)
    (L : List (Option DataNode)) (st : USt) :
    processNode g L st none = st := rfl

theorem processNode_some (g : DataNode → List DataNode)
    (L : List (Option DataNode)) (st : USt) (node : DataNode) :
    processNode g L st (some node)
      = ensureUID (srcFold node st
          ((g node).filter (fun s => decide (some s ∈ L)))) node := rfl

theorem processNode_uids_extend (g : DataNode → List DataNode)
    (L : List (Option DataNode)) (st : USt) (e : Option DataNode) :
    st.uids <+: (processNode g L st e).uids := by
  cases e with
  | none => exact List.prefix_refl _
  | some node =>
    exact (srcFold_uids_extend node st _).trans (ensureUID_uids_extend _ node)

theorem UInv_processNode {st : USt} (h : UInv st)
    (g : DataNode → List DataNode) (L : List (Option DataNode))
    (e : Option DataNode) : UInv (processNode g L st e) := by
  cases e with
  | none => exact h
  | some node => exact UInv_ensureUID (UInv_srcFold h node _) node

theorem SrcInv_processNode {st : USt} (h : SrcInv st)
    (g : DataNode → List DataNode) (L : List (Option DataNode))
    (e : Option DataNode) : SrcInv (processNode g L st e) := by
  cases e with
  | none => exact h
  | some node => exact SrcInv_ensureUID (SrcInv_srcFold h node _) node

theorem processNode_mem_uids {g : DataNode → List DataNode}
    {L : List (Option DataNode)} {st : USt} {e : Option DataNode}
    {p : DataNode × Nat} (hent : ∀ n, e = some n → n ∈ realNodes L)
    (h : p ∈ (processNode g L st e).uids) :
    p ∈ st.uids ∨ p.1 ∈ realNodes L := by
  cases e with
  | none => exact Or.inl h
  | some node =>
    rcases ensureUID_mem_uids h with h1 | h1
    · rcases srcFold_mem_uids st h1 with h2 | h2
      · exact Or.inl h2
      · right
        have hd := List.of_mem_filter h2
        exact mem_realNodes.mpr (of_decide_eq_true hd)
    · right
      rw [h1]
      exact hent node rfl

theorem uidPassAux_nil (g : DataNode → List DataNode)
    (L : List (Option DataNode)) (st : USt) :
    uidPassAux g L st [] = st := rfl

theorem uidPassAux_cons (g : DataNode → List DataNode)
    (L : List (Option DataNode)) (st : USt) (e : Option DataNode)
    (es : List (Option DataNode)) :
    uidPassAux g L st (e :: es) = uidPassAux g L (processNode g L st e) es :=
  rfl

theorem uidPassAux_append (g : DataNode → List DataNode)
    (L : List (Option DataNode)) (st : USt)
    (es fs : List (Option DataNode)) :
    uidPassAux g L st (es ++ fs)
      = uidPassAux g L (uidPassAux g L st es) fs := by
  simp [uidPassAux, List.foldl_append]

theorem uidPassAux_uids_extend (g : DataNode → List DataNode)
    (L : List (Option DataNode)) (st : USt) (es : List (Option DataNode)) :
    st.uids <+: (uidPassAux g L st es).uids := by
  induction es generalizing st with
  | nil => exact List.prefix_refl _
  | cons e rest ih =>
    exact (processNode_uids_extend g L st e).trans (ih (processNode g L st e))

theorem uidPassAux_lookup_stable {g : DataNode → List DataNode}
    {L : List (Option DataNode)} {st : USt} {es : List (Option DataNode)}
    {m : DataNode} {c : Nat} (h : lookupA st.uids m = some c) :
    lookupA (uidPassAux g L st es).uids m = some c :=
  lookupA_extend (uidPassAux_uids_extend g L st es) h

theorem UInv_uidPassAux {st : USt} (h : UInv st)
    (g : DataNode → List DataNode) (L : List (Option DataNode))
    (es : List (Option DataNode)) : UInv (uidPassAux g L st es) := by
  induction es generalizing st with
  | nil => exact h
  | cons e rest ih => exact ih (UInv_processNode h g L e)

theorem SrcInv_uidPassAux {st : USt} (h : SrcInv st)
    (g : DataNode → List DataNode) (L : List (Option DataNode))
    (es : List (Option DataNode)) : SrcInv (uidPassAux g L st es) := by
  induction es generalizing st with
  | nil => exact h
  | cons e rest ih => exact ih (SrcInv_processNode h g L e)

theorem uidPassAux_mem_uids {g : DataNode → List DataNode}
    {L : List (Option DataNode)} {st : USt} {es : List (Option DataNode)}
    {p : DataNode × Nat} (hents : ∀ n, some n ∈ es → n ∈ realNodes L)
    (h : p ∈ (uidPassAux g L st es).uids) :
    p ∈ st.uids ∨ p.1 ∈ realNodes L := by
  induction es generalizing st with
  | nil => exact Or.inl h
  | cons e rest ih =>
    rcases ih (fun n hn => hents n (List.mem_cons_of_mem _ hn)) h with h1 | h1
    · exact processNode_mem_uids
        (fun n hn => hents n (hn ▸ List.mem_cons_self _ _)) h1
    · exact Or.inr h1

theorem uidPassAux_coverage {g : DataNode → List DataNode}
    {L : List (Option DataNode)} {es : List (Option DataNode)} {n : DataNode}
    (h : some n ∈ es) (st : USt) :
    ∃ c, lookupA (uidPassAux g L st es).uids n = some c := by
  induction es generalizing st with
  | nil => simp at h
  | cons e rest ih =>
    rcases List.mem_cons.mp h with h1 | h1
    · subst h1
      obtain ⟨c, hc⟩ := ensureUID_lookup_self
        (srcFold n st ((g n).filter (fun s => decide (some s ∈ L)))) n
      rw [uidPassAux_cons]
      exact ⟨c, uidPassAux_lookup_stable (by rw [processNode_some]; exact hc)⟩
    · exact ih h1 (processNode g L st e)

theorem processNode_srcs_frame {g : DataNode → List DataNode}
    {L : List (Option DataNode)} {st : USt} {e : Option DataNode}
    {n : DataNode} (hne : ∀ m, e = some m → m ≠ n) :
    lookupA (processNode g L st e).srcs n = lookupA st.srcs n := by
  cases e with
  | none => rfl
  | some node =>
    rw [processNode_some,
      show (ensureUID (srcFold node st ((g node).filter
        (fun s => decide (some s ∈ L)))) node).srcs
        = (srcFold node st ((g node).filter
            (fun s => decide (some s ∈ L)))).srcs from ensureUID_srcs _ _,
      srcFold_srcs_lookup_ne (hne node rfl)]

theorem uidPassAux_srcs_frame (g : DataNode → List DataNode)
    (L : List (Option DataNode)) {es : List (Option DataNode)} {n : DataNode}
    (h : some n ∉ es) (st : USt) :
    lookupA (uidPassAux g L st es).srcs n = lookupA st.srcs n := by
  induction es generalizing st with
  | nil => rfl
  | cons e rest ih =>
    rw [uidPassAux_cons, ih (fun hc => h (List.mem_cons_of_mem _ hc)),
      processNode_srcs_frame]
    intro m hm he
    exact h (by rw [hm, he]; exact List.mem_cons_self _ _)

/-! ## Characterization of the complete UID pass -/

theorem uidPass_UInv (g : DataNode → List DataNode)
    (L : List (Option DataNode)) : UInv (uidPass g L) :=
  UInv_uidPassAux UInv_init g L L

theorem uidPass_SrcInv (g : DataNode → List DataNode)
    (L : List (Option DataNode)) : SrcInv (uidPass g L) :=
  SrcInv_uidPassAux SrcInv_init g L L

theorem uidPass_coverage (g : DataNode → List DataNode)
    {L : List (Option DataNode)} {n : DataNode} (h : n ∈ realNodes L) :
    ∃ c, lookupA (uidPass g L).uids n = some c :=
  uidPassAux_coverage (mem_realNodes.mp h) initUSt

theorem uidPass_mem {g : DataNode → List DataNode}
    {L : List (Option DataNode)} {p : DataNode × Nat}
    (h : p ∈ (uidPass g L).uids) : p.1 ∈ realNodes L := by
  rcases uidPassAux_mem_uids (fun n hn => mem_realNodes.mpr hn) h with h1 | h1
  · simp [initUSt] at h1
  · exact h1

theorem uidPass_lookup_inj {g : DataNode → List DataNode}
    {L : List (Option DataNode)} {n₁ n₂ : DataNode} {c₁ c₂ : Nat}
    (h₁ : lookupA (uidPass g L).uids n₁ = some c₁)
    (h₂ : lookupA (uidPass g L).uids n₂ = some c₂) (hne : n₁ ≠ n₂) :
    c₁ ≠ c₂ := by
  intro he
  subst he
  have hu := uidPass_UInv g L
  have hpair := List.inj_on_of_nodup_map hu.2.1
    (lookupA_mem h₁) (lookupA_mem h₂) rfl
  exact hne (congrArg Prod.fst hpair)

theorem uidPass_lookup_outside {g : DataNode → List DataNode}
    {L : List (Option DataNode)} {s : DataNode} (h : s ∉ realNodes L) :
    lookupA (uidPass g L).uids s = none := by
  cases hl : lookupA (uidPass g L).uids s with
  | none => rfl
  | some c => exact absurd (uidPass_mem (lookupA_mem hl)) h

theorem uidPass_srcs_spec {g : DataNode → List DataNode}
    {L : List (Option DataNode)} {n : DataNode}
    (hnd : (realNodes L).Nodup) (hn : n ∈ realNodes L) :
    (lookupA (uidPass g L).srcs n).getD []
      = ((g n).filter (fun s => decide (some s ∈ L))).map
          (fun s => uidString ((lookupA (uidPass g L).uids s).getD 0)) := by
  obtain ⟨pre, suf, hL⟩ := List.append_of_mem (mem_realNodes.mp hn)
  subst hL
  have hsplit : realNodes (pre ++ some n :: suf)
      = realNodes pre ++ n :: realNodes suf := by
    simp [realNodes, List.filterMap_append, List.filterMap_cons]
  rw [hsplit] at hnd
  obtain ⟨hndPre, hndCons, hdisj⟩ := List.nodup_append.mp hnd
  have hpre : some n ∉ pre := fun hc =>
    (List.disjoint_left.mp hdisj (mem_realNodes.mpr hc))
      (List.mem_cons_self _ _)
  have hsuf : some n ∉ suf := fun hc =>
    (List.nodup_cons.mp hndCons).1 (mem_realNodes.mpr hc)
  set L := pre ++ some n :: suf with hLdef
  set filtered := (g n).filter (fun s => decide (some s ∈ L)) with hfil
  have hpass : uidPass g L
      = uidPassAux g L (processNode g L (uidPassAux g L initUSt pre)
          (some n)) suf := by
    rw [uidPass, hLdef, uidPassAux_append]
    rfl
  set stP := uidPassAux g L initUSt pre with hstP
  set stF := srcFold n stP filtered with hstF
  set stM := processNode g L stP (some n) with hstM
  have hframe1 : lookupA (uidPass g L).srcs n = lookupA stM.srcs n := by
    rw [hpass]
    exact uidPassAux_srcs_frame g L hsuf stM
  have hM : stM.srcs = stF.srcs := by
    rw [hstM, processNode_some, ensureUID_srcs, hstF, hfil]
  have hframe2 : lookupA stP.srcs n = none := by
    have := uidPassAux_srcs_frame g L hpre initUSt
    rw [← hstP] at this
    rw [this]
    rfl
  have hgetD : (lookupA stF.srcs n).getD []
      = filtered.map (fun s => uidString ((lookupA stF.uids s).getD 0)) := by
    rw [hstF, srcFold_srcs_getD, ← hstF, hframe2]
    rfl
  rw [hframe1, hM, hgetD]
  refine List.map_congr_left ?_
  intro s hs
  obtain ⟨c, hc⟩ := srcFold_lookup_some hs stP
  rw [← hstF] at hc
  have hfinal : lookupA (uidPass g L).uids s = some c := by
    rw [hpass]
    refine lookupA_extend (uidPassAux_uids_extend g L stM suf) ?_
    refine lookupA_extend ?_ hc
    rw [hstM, processNode_some, ← hfil, ← hstF]
    exact ensureUID_uids_extend stF n
  rw [hc, hfinal]

/-! ## Characterization of the writing pass -/

theorem writeNode_err (env : SaveEnv) (ust : USt) (node : DataNode) :
    (writeNode env ust node).2.1 = nodeFails env node := by
  unfold writeNode nodeFails serializeFails
  cases node.data with
  | none => rfl
  | some d =>
    simp only []
    split <;> rfl

theorem writeFold_eq (env : SaveEnv) (ust : USt) (ws : WriteState)
    (entries : List (Option DataNode)) :
    entries.foldl (writeStep env ust) ws =
      ⟨ws.elements
          ++ (realNodes entries).map (fun n => (writeNode env ust n).1),
        ws.failedNodes ++ (realNodes entries).filter (nodeFails env),
        ws.failedProps ++ ((realNodes entries).map
          (fun n => (writeNode env ust n).2.2)).flatten⟩ := by
  induction entries generalizing ws with
  | nil =>
    cases ws
    simp [realNodes]
  | cons e rest ih =>
    cases e with
    | none =>
      rw [List.foldl_cons]
      show List.foldl _ ws rest = _
      rw [ih]
      simp [realNodes, List.filterMap_cons]
    | some n =>
      rw [List.foldl_cons, ih]
      have hreal : realNodes (some n :: rest) = n :: realNodes rest := by
        simp [realNodes, List.filterMap_cons]
      rw [hreal]
      simp only [writeStep, List.map_cons, List.filter_cons,
        List.flatten_cons, writeNode_err]
      cases hf : nodeFails env n <;>
        simp [List.append_assoc]

theorem writePass_eq (env : SaveEnv) (ust : USt)
    (entries : List (Option DataNode)) :
    writePass env ust entries =
      ⟨(realNodes entries).map (fun n => (writeNode env ust n).1),
        (realNodes entries).filter (nodeFails env),
        ((realNodes entries).map
          (fun n => (writeNode env ust n).2.2)).flatten⟩ := by
  rw [writePass, writeFold_eq]
  rfl

theorem writeNode_uid (env : SaveEnv) (ust : USt) (node : DataNode) :
    (writeNode env ust node).1.uid = (lookupA ust.uids node).map uidString :=
  rfl

theorem writeNode_sourceUIDs (env : SaveEnv) (ust : USt) (node : DataNode) :
    (writeNode env ust node).1.sourceUIDs = (lookupA ust.srcs node).getD [] :=
  rfl

/-! ## Field lemmas on the save orchestration -/

theorem stagedOutcome_manifest (env : SaveEnv) (ws : WriteState) :
    (stagedOutcome env ws).manifest = ws.elements := by
  unfold stagedOutcome
  split
  · rfl
  split
  · rfl
  split
  · rfl
  split
  · rfl
  split <;> rfl

theorem stagedOutcome_failedNodes (env : SaveEnv) (ws : WriteState) :
    (stagedOutcome env ws).failedNodes = ws.failedNodes := by
  unfold stagedOutcome
  split
  · rfl
  split
  · rfl
  split
  · rfl
  split
  · rfl
  split <;> rfl

theorem stagedOutcome_stagingCreated (env : SaveEnv) (ws : WriteState) :
    (stagedOutcome env ws).stagingCreated = true := by
  unfold stagedOutcome
  split
  · rfl
  split
  · rfl
  split
  · rfl
  split
  · rfl
  split <;> rfl

theorem stagedOutcome_returnValue (env : SaveEnv) (ws : WriteState)
    (h1 : env.saveFileOk = true) (h2 : env.deleteDestThrows = false)
    (h3 : env.zipOpenOk = true) (h4 : env.zipThrows = false)
    (h5 : env.stagingDeleteOk = true) :
    (stagedOutcome env ws).returnValue = true := by
  unfold stagedOutcome
  rw [h1, h2, h3, h4, h5]
  rfl

theorem stagedOutcome_deleteAttempted (env : SaveEnv) (ws : WriteState) :
    (stagedOutcome env ws).stagingDeleteAttempted
      = (env.saveFileOk && !env.deleteDestThrows && env.zipOpenOk
          && !env.zipThrows) := by
  unfold stagedOutcome
  cases h1 : env.saveFileOk <;> cases h2 : env.deleteDestThrows <;>
    cases h3 : env.zipOpenOk <;> cases h4 : env.zipThrows <;>
    cases h5 : env.stagingDeleteOk <;> simp

theorem SaveScene_staged (env : SaveEnv) (nodes : List (Option DataNode))
    (st : Storage) (filename : String) (hfn : filename.isEmpty = false)
    (htmp : (CreateEmptyTempDirectory env.tempDir).isEmpty = false) :
    SaveScene env (some nodes) (some st) filename
      = stagedOutcome env
          (writePass env (uidPass st.getSources nodes) nodes) := by
  simp [SaveScene, hfn, htmp]

/-! ## Null entries in the node set change nothing -/

theorem processNode_congr_L {g : DataNode → List DataNode}
    {L₁ L₂ : List (Option DataNode)}
    (h : ∀ s : DataNode, some s ∈ L₁ ↔ some s ∈ L₂) (st : USt)
    (e : Option DataNode) : processNode g L₁ st e = processNode g L₂ st e := by
  cases e with
  | none => rfl
  | some node =>
    rw [processNode_some, processNode_some,
      List.filter_congr (fun s _ => decide_eq_decide.mpr (h s))]

theorem uidPassAux_congr_L {g : DataNode → List DataNode}
    {L₁ L₂ : List (Option DataNode)}
    (h : ∀ s : DataNode, some s ∈ L₁ ↔ some s ∈ L₂) (st : USt)
    (es : List (Option DataNode)) :
    uidPassAux g L₁ st es = uidPassAux g L₂ st es := by
  induction es generalizing st with
  | nil => rfl
  | cons e rest ih =>
    rw [uidPassAux_cons, uidPassAux_cons, processNode_congr_L h, ih]

theorem uidPassAux_skip_none (g : DataNode → List DataNode)
    (L : List (Option DataNode)) (st : USt)
    (xs ys : List (Option DataNode)) :
    uidPassAux g L st (xs ++ none :: ys) = uidPassAux g L st (xs ++ ys) := by
  rw [uidPassAux_append, uidPassAux_append, uidPassAux_cons, processNode_none]

theorem uidPass_skip_none (g : DataNode → List DataNode)
    (xs ys : List (Option DataNode)) :
    uidPass g (xs ++ none :: ys) = uidPass g (xs ++ ys) := by
  rw [uidPass, uidPassAux_skip_none]
  exact uidPassAux_congr_L (fun s => by simp) initUSt (xs ++ ys)

theorem writePass_skip_none (env : SaveEnv) (ust : USt)
    (xs ys : List (Option DataNode)) :
    writePass env ust (xs ++ none :: ys) = writePass env ust (xs ++ ys) := by
  rw [writePass_eq, writePass_eq,
    show realNodes (xs ++ none :: ys) = realNodes (xs ++ ys) by
      simp [realNodes, List.filterMap_append, List.filterMap_cons]]

/-! ## Lemmas on `SaveBaseData` and `writeNode` -/

theorem SaveBaseData_typeAttr (ca : String → List Candidate)
    (d : DataPayload) (hint : String) :
    (SaveBaseData ca d hint).1.typeAttr = d.typeName := by
  unfold SaveBaseData
  simp only []
  cases h : (ca (d.typeName ++ "Serializer")).findSome? candidateRun with
  | none => rfl
  | some run => cases hr : run d hint <;> simp [hr]

theorem SaveBaseData_fileAttr_none_iff (ca : String → List Candidate)
    (d : DataPayload) (hint : String) :
    ((SaveBaseData ca d hint).1.fileAttr = none
      ↔ (SaveBaseData ca d hint).2 = true) := by
  unfold SaveBaseData
  simp only []
  cases h : (ca (d.typeName ++ "Serializer")).findSome? candidateRun with
  | none => simp
  | some run => cases hr : run d hint <;> simp [hr]

theorem writeNode_dataElement_some (env : SaveEnv) (ust : USt)
    {n : DataNode} {d : DataPayload} (hd : n.data = some d) :
    ∃ de, (writeNode env ust n).1.dataElement = some de ∧
      de.typeAttr
        = (SaveBaseData env.createAllInstance d (makeCIdentifier n.name)).1.typeAttr ∧
      de.fileAttr
        = (SaveBaseData env.createAllInstance d (makeCIdentifier n.name)).1.fileAttr := by
  unfold writeNode
  rw [hd]
  simp only []
  split
  · exact ⟨_, rfl, rfl, rfl⟩
  · exact ⟨_, rfl, rfl, rfl⟩

theorem nodeFails_of_data {env : SaveEnv} {n : DataNode} {d : DataPayload}
    (hd : n.data = some d) :
    nodeFails env n
      = serializeFails env.createAllInstance d (makeCIdentifier n.name) := by
  unfold nodeFails
  rw [hd]

/-! ## Generic helper -/

theorem filterMap_eq_map_of_forall {α β : Type} {f : α → Option β}
    {g : α → β} {l : List α} (h : ∀ x ∈ l, f x = some (g x)) :
    l.filterMap f = l.map g := by
  induction l with
  | nil => rfl
  | cons a rest ih =>
    rw [List.filterMap_cons, h a (List.mem_cons_self _ _), List.map_cons,
      ih (fun x hx => h x (List.mem_cons_of_mem _ hx))]

/-! ## Field lemmas on the load orchestration -/

theorem LoadSceneUnzipped_isSome (env : LoadEnv) (idx : String)
    (ps : Option Storage) (cf : Bool) :
    (LoadSceneUnzipped env idx ps cf).storage.isSome = true := by
  unfold LoadSceneUnzipped
  repeat' split
  all_goals rfl

theorem LoadScene_attempted_eq_created (env : LoadEnv) (fn : String)
    (ps : Option Storage) (cf : Bool) :
    (LoadScene env fn ps cf).stagingDeleteAttempted
      = (LoadScene env fn ps cf).stagingCreated := by
  unfold LoadScene
  simp only []
  split
  · rfl
  split
  · rfl
  split <;> rfl

theorem SaveScene_attempted_iff (env : SaveEnv)
    (sn : Option (List (Option DataNode))) (st : Option Storage)
    (fn : String) :
    (SaveScene env sn st fn).stagingDeleteAttempted
      = ((SaveScene env sn st fn).stagingCreated && env.saveFileOk
          && !env.deleteDestThrows && env.zipOpenOk && !env.zipThrows) := by
  cases sn with
  | none => simp [SaveScene, earlySaveFail]
  | some nodes =>
    cases st with
    | none => simp [SaveScene, earlySaveFail]
    | some s =>
      unfold SaveScene
      simp only []
      split
      · simp [earlySaveFail]
      · split
        · simp [earlySaveFail]
        · rw [stagedOutcome_deleteAttempted, stagedOutcome_stagingCreated]
          simp

/-! ## Concrete fixtures -/

/-- A node whose payload serializes successfully. -/
def imageNode : DataNode :=
  ⟨1, "imageA", some ⟨"Image", ⟨[]⟩⟩, ⟨[]⟩, []⟩

/-- A node whose payload serializer throws. -/
def surfaceNode : DataNode :=
  ⟨2, "surfB", some ⟨"Surface", ⟨[]⟩⟩, ⟨[]⟩, []⟩

/-- A node kept out of the persisted set. -/
def outsideNode : DataNode :=
  ⟨3, "outside", none, ⟨[]⟩, []⟩

/-- A storage in which `surfaceNode` is derived from `imageNode` and
`outsideNode`. -/
def fixtureStorage : Storage :=
  ⟨[imageNode, surfaceNode, outsideNode],
   fun n => if n = surfaceNode then [imageNode, outsideNode] else []⟩

/-- File system where every `createDirectory` call succeeds. -/
def goodTempDirEnv : TempDirEnv :=
  ⟨"/tmp/", "/opt", "U1", "U2", "/", fun _ => .created⟩

/-- File system where every `createDirectory` call hits an existing
directory. -/
def collideTempDirEnv : TempDirEnv :=
  ⟨"/tmp/", "/opt", "U1", "U2", "/", fun _ => .alreadyExists⟩

/-- File system where every `createDirectory` call throws. -/
def throwTempDirEnv : TempDirEnv :=
  ⟨"/tmp/", "/opt", "U1", "U2", "/", fun _ => .throws⟩

/-- File system where the first candidate path exists and the fallback path
throws. -/
def collideThenThrowEnv : TempDirEnv :=
  ⟨"/tmp/", "/opt", "U1", "U2", "/",
   fun p => if p = "/tmp/SceneIOTempU1/" then .alreadyExists else .throws⟩

/-- Serializer registry: the Image serializer succeeds, the Surface
serializer throws, every other type has no serializer. -/
def goodCreateAll : String → List Candidate := fun s =>
  if s = "ImageSerializer" then [.serializer (fun _ h => .ok (h ++ ".img"))]
  else if s = "SurfaceSerializer" then [.serializer (fun _ _ => .error "E")]
  else []

/-- Save environment in which every external step succeeds (apart from the
Surface serializer above). -/
def goodSaveEnv : SaveEnv :=
  ⟨goodCreateAll, fun h _ => .ok (h ++ ".xml", none), goodTempDirEnv,
   true, false, true, false, true⟩

/-- Save environment in which the manifest write (`SaveFile`) fails. -/
def failWriteSaveEnv : SaveEnv :=
  ⟨goodCreateAll, fun h _ => .ok (h ++ ".xml", none), goodTempDirEnv,
   false, false, true, false, true⟩

/-- Load environment in which everything succeeds. -/
def goodLoadEnv : LoadEnv :=
  ⟨goodTempDirEnv, true, 0, true, [imageNode], true, true⟩

/-- Load environment in which `index.xml` fails to parse. -/
def failParseLoadEnv : LoadEnv :=
  ⟨goodTempDirEnv, true, 0, false, [], true, true⟩

/-! ## Claim theorems -/

/-- **C1, counterexample.**  The claim states that the staging directory is
deleted on every exit path after successful creation.  On the
manifest-write-failure path of `SaveScene` (lines 416–421), the function
returns `false` without ever reaching the staging-directory deletion (lines
446–455): staging was created but its removal is not even attempted. -/
theorem C1_counterexample :
    (SaveScene failWriteSaveEnv (some [some imageNode])
        (some fixtureStorage) "scene.mitk").stagingCreated = true ∧
    (SaveScene failWriteSaveEnv (some [some imageNode])
        (some fixtureStorage) "scene.mitk").stagingDeleteAttempted = false ∧
    (SaveScene failWriteSaveEnv (some [some imageNode])
        (some fixtureStorage) "scene.mitk").stagingDeleted = false ∧
    (SaveScene failWriteSaveEnv (some [some imageNode])
        (some fixtureStorage) "scene.mitk").returnValue = false :=
  ⟨rfl, rfl, rfl, rfl⟩

/-- **C1 (amended).**  For every load in which staging was created, its
deletion is attempted before return on every exit path.  For save, deletion
is attempted exactly when the manifest write, the destination-file deletion,
the zip-stream opening, and the packing all succeed; on a hard failure of
any of those after staging creation, `SaveScene` returns with the staging
directory still on disk. -/
theorem C1_staging_cleanup :
    (∀ (env : LoadEnv) (fn : String) (ps : Option Storage) (cf : Bool),
      (LoadScene env fn ps cf).stagingCreated = true →
      (LoadScene env fn ps cf).stagingDeleteAttempted = true) ∧
    (∀ (env : SaveEnv) (sn : Option (List (Option DataNode)))
        (st : Option Storage) (fn : String),
      (SaveScene env sn st fn).stagingCreated = true →
      ((SaveScene env sn st fn).stagingDeleteAttempted = true ↔
        (env.saveFileOk = true ∧ env.deleteDestThrows = false ∧
         env.zipOpenOk = true ∧ env.zipThrows = false))) := by
  constructor
  · intro env fn ps cf h
    rw [LoadScene_attempted_eq_created, h]
  · intro env sn st fn h
    rw [SaveScene_attempted_iff, h]
    simp [and_assoc]

/-- **C1, witness.** -/
theorem C1_staging_cleanup_witness :
    ((LoadScene goodLoadEnv "scene.mitk" (some fixtureStorage)
        false).stagingDeleteAttempted = true) ∧
    ((SaveScene goodSaveEnv (some [some imageNode]) (some fixtureStorage)
        "scene.mitk").stagingDeleteAttempted = true ↔
      (goodSaveEnv.saveFileOk = true ∧ goodSaveEnv.deleteDestThrows = false ∧
       goodSaveEnv.zipOpenOk = true ∧ goodSaveEnv.zipThrows = false)) :=
  ⟨C1_staging_cleanup.1 goodLoadEnv "scene.mitk" (some fixtureStorage)
      false rfl,
   C1_staging_cleanup.2 goodSaveEnv (some [some imageNode])
      (some fixtureStorage) "scene.mitk" rfl⟩

/-- **C4, counterexample.**  With both candidate paths already existing,
`CreateEmptyTempDirectory` does not give up: it returns the pre-existing
fallback path (a non-empty string, i.e. not the failure value), proceeding
with the pre-existing directory. -/
theorem C4_counterexample :
    CreateEmptyTempDirectory collideTempDirEnv
        = "/opt/SceneIOTempDirectoryU2" ∧
    CreateEmptyTempDirectory collideTempDirEnv ≠ "" :=
  ⟨rfl, by decide⟩

/-- **C4 (amended).**  Staging-area creation never silently reuses the first
existing directory: on a first collision it falls back exactly once to the
alternate root.  If the alternate path also already exists, it logs an error
but proceeds with the pre-existing alternate directory (returning its path);
the failure value `""` is returned only when a `createDirectory` call
throws. -/
theorem C4_tempdir_behaviour (env : TempDirEnv) :
    (env.createDirectory (env.tempRoot ++ "SceneIOTemp" ++ env.uid1
        ++ env.sep) = CreateResult.created →
      CreateEmptyTempDirectory env
        = env.tempRoot ++ "SceneIOTemp" ++ env.uid1) ∧
    (env.createDirectory (env.tempRoot ++ "SceneIOTemp" ++ env.uid1
        ++ env.sep) = CreateResult.throws →
      CreateEmptyTempDirectory env = "") ∧
    (env.createDirectory (env.tempRoot ++ "SceneIOTemp" ++ env.uid1
        ++ env.sep) = CreateResult.alreadyExists →
      ((env.createDirectory (env.optionDir ++ env.sep
          ++ "SceneIOTempDirectory" ++ env.uid2 ++ env.sep)
            = CreateResult.throws →
        CreateEmptyTempDirectory env = "") ∧
       (env.createDirectory (env.optionDir ++ env.sep
          ++ "SceneIOTempDirectory" ++ env.uid2 ++ env.sep)
            ≠ CreateResult.throws →
        CreateEmptyTempDirectory env
          = env.optionDir ++ env.sep ++ "SceneIOTempDirectory"
            ++ env.uid2))) := by
  unfold CreateEmptyTempDirectory
  simp only []
  refine ⟨fun h1 => ?_, fun h1 => ?_,
    fun h1 => ⟨fun h2 => ?_, fun h2 => ?_⟩⟩
  · rw [h1]
  · rw [h1]
  · rw [h1, h2]
  · rw [h1]
    cases h3 : env.createDirectory (env.optionDir ++ env.sep
        ++ "SceneIOTempDirectory" ++ env.uid2 ++ env.sep) with
    | throws => exact absurd h3 h2
    | created => rfl
    | alreadyExists => rfl

/-- **C4, witness.** -/
theorem C4_tempdir_behaviour_witness :
    CreateEmptyTempDirectory goodTempDirEnv
        = goodTempDirEnv.tempRoot ++ "SceneIOTemp" ++ goodTempDirEnv.uid1 ∧
    CreateEmptyTempDirectory throwTempDirEnv = "" ∧
    CreateEmptyTempDirectory collideThenThrowEnv = "" ∧
    CreateEmptyTempDirectory collideTempDirEnv
        = collideTempDirEnv.optionDir ++ collideTempDirEnv.sep
          ++ "SceneIOTempDirectory" ++ collideTempDirEnv.uid2 :=
  ⟨(C4_tempdir_behaviour goodTempDirEnv).1 rfl,
   (C4_tempdir_behaviour throwTempDirEnv).2.1 rfl,
   ((C4_tempdir_behaviour collideThenThrowEnv).2.2 (by decide)).1 (by decide),
   ((C4_tempdir_behaviour collideTempDirEnv).2.2 rfl).2 (by decide)⟩

/-- **C7.**  Loading with the clear-first flag into a non-empty storage
removes every pre-existing node before reconstruction begins (the clearing
milestone is the first event, and the resulting node list consists solely of
the reader's reconstructed nodes); without the flag, every pre-existing node
remains, with the reloaded nodes appended. -/
theorem C7_clear_first_semantics (env : LoadEnv) (s : Storage) (idx : String)
    (hne : s.nodes ≠ []) (hidx : idx.isEmpty = false) :
    ((LoadSceneUnzipped env idx (some s) true).storage.map Storage.nodes
      = some (if env.manifestParses then env.readerNodes else [])) ∧
    ((LoadSceneUnzipped env idx (some s) true).events.head?
      = some LoadEvent.clearedStorage) ∧
    ((LoadSceneUnzipped env idx (some s) false).storage.map Storage.nodes
      = some (s.nodes
          ++ (if env.manifestParses then env.readerNodes else []))) := by
  unfold LoadSceneUnzipped SceneReader_LoadScene
  cases hp : env.manifestParses <;> simp [hidx, hp]

/-- **C7, witness.** -/
theorem C7_clear_first_semantics_witness :
    ((LoadSceneUnzipped goodLoadEnv "index.xml" (some fixtureStorage)
        true).storage.map Storage.nodes
      = some (if goodLoadEnv.manifestParses then goodLoadEnv.readerNodes
          else [])) ∧
    ((LoadSceneUnzipped goodLoadEnv "index.xml" (some fixtureStorage)
        true).events.head? = some LoadEvent.clearedStorage) ∧
    ((LoadSceneUnzipped goodLoadEnv "index.xml" (some fixtureStorage)
        false).storage.map Storage.nodes
      = some (fixtureStorage.nodes
          ++ (if goodLoadEnv.manifestParses then goodLoadEnv.readerNodes
              else []))) :=
  C7_clear_first_semantics goodLoadEnv fixtureStorage "index.xml"
    (by decide) rfl

/-- **C8.**  `LoadScene` never returns a null storage pointer: on every
input (empty filename, unreadable archive, staging-creation failure, unzip
errors, parse failure) it returns a storage — the caller-supplied one or a
freshly created one. -/
theorem C8_load_never_null (env : LoadEnv) (filename : String)
    (pStorage : Option Storage) (clearFirst : Bool) :
    (LoadScene env filename pStorage clearFirst).storage.isSome = true := by
  unfold LoadScene
  simp only []
  split
  · rfl
  split
  · rfl
  split
  · rfl
  · exact LoadSceneUnzipped_isSome env _ _ clearFirst

/-- **C9.**  With the clear-first flag, the destination is cleared before
the manifest is opened: when the manifest then fails to parse, the returned
storage is the cleared one (the pre-existing nodes are gone, not restored),
and the event order shows clearing strictly before the parse attempt. -/
theorem C9_cleared_before_parse (env : LoadEnv) (s : Storage) (idx : String)
    (hidx : idx.isEmpty = false) (hparse : env.manifestParses = false) :
    (LoadSceneUnzipped env idx (some s) true).storage
        = some { s with nodes := [] } ∧
    (LoadSceneUnzipped env idx (some s) true).events
        = [LoadEvent.clearedStorage, LoadEvent.parseManifest false] := by
  unfold LoadSceneUnzipped
  simp [hidx, hparse]

/-- **C9, witness.** -/
theorem C9_cleared_before_parse_witness :
    (LoadSceneUnzipped failParseLoadEnv "index.xml" (some fixtureStorage)
        true).storage = some { fixtureStorage with nodes := [] } ∧
    (LoadSceneUnzipped failParseLoadEnv "index.xml" (some fixtureStorage)
        true).events
      = [LoadEvent.clearedStorage, LoadEvent.parseManifest false] :=
  C9_cleared_before_parse failParseLoadEnv fixtureStorage "index.xml" rfl rfl

/-- **C10.**  A null entry in the node set is skipped entirely: the save
outcome (return value, manifest, identifier assignment, both failure
accumulators, staging behaviour) is identical to the save of the same set
without the null entry. -/
theorem C10_null_entry_ignored (env : SaveEnv) (st : Storage)
    (xs ys : List (Option DataNode)) (filename : String) :
    SaveScene env (some (xs ++ none :: ys)) (some st) filename
      = SaveScene env (some (xs ++ ys)) (some st) filename := by
  cases hfn : filename.isEmpty with
  | true => simp [SaveScene, hfn]
  | false =>
    cases htmp : (CreateEmptyTempDirectory env.tempDir).isEmpty with
    | true => simp [SaveScene, hfn, htmp]
    | false =>
      rw [SaveScene_staged env _ st filename hfn htmp,
        SaveScene_staged env _ st filename hfn htmp,
        uidPass_skip_none, writePass_skip_none]

/-- **C3, counterexample.**  A node whose payload serialization fails is
recorded in the failure accumulator, yet its manifest entry still contains
the payload sub-element (with the type attribute); only the file reference
is absent.  The claim that the entry contains no payload sub-element at all
is false. -/
theorem C3_counterexample :
    ((SaveScene goodSaveEnv (some [some surfaceNode]) (some fixtureStorage)
        "scene.mitk").manifest.map NodeElement.dataElement
      = [some { typeAttr := "Surface", fileAttr := none, dataProps := none }])
    ∧ ((SaveScene goodSaveEnv (some [some surfaceNode])
        (some fixtureStorage) "scene.mitk").failedNodes = [surfaceNode]) :=
  ⟨rfl, rfl⟩

/-- **C3 (amended).**  For every persisted node with a payload, the manifest
entry always contains the payload sub-element carrying the declared type
name; the file reference inside it is absent exactly when serialization of
that payload failed, and in that case the node is recorded in the failure
accumulator. -/
theorem C3_payload_element (env : SaveEnv) (st : Storage)
    (nodes : List (Option DataNode)) (filename : String)
    (hfn : filename.isEmpty = false)
    (htmp : (CreateEmptyTempDirectory env.tempDir).isEmpty = false)
    {n : DataNode} {d : DataPayload} (hn : n ∈ realNodes nodes)
    (hd : n.data = some d) :
    ∃ e ∈ (SaveScene env (some nodes) (some st) filename).manifest,
      e.uid = (lookupA (uidPass st.getSources nodes).uids n).map uidString ∧
      ∃ de, e.dataElement = some de ∧ de.typeAttr = d.typeName ∧
        (de.fileAttr = none ↔
          serializeFails env.createAllInstance d (makeCIdentifier n.name)
            = true) ∧
        (serializeFails env.createAllInstance d (makeCIdentifier n.name)
            = true →
          n ∈ (SaveScene env (some nodes) (some st) filename).failedNodes) := by
  rw [SaveScene_staged env nodes st filename hfn htmp,
    stagedOutcome_manifest, stagedOutcome_failedNodes, writePass_eq]
  refine ⟨(writeNode env (uidPass st.getSources nodes) n).1,
    List.mem_map.mpr ⟨n, hn, rfl⟩, writeNode_uid _ _ _, ?_⟩
  obtain ⟨de, hde, hty, hfa⟩ :=
    writeNode_dataElement_some env (uidPass st.getSources nodes) hd
  refine ⟨de, hde, by rw [hty, SaveBaseData_typeAttr], ?_, ?_⟩
  · rw [hfa]
    exact SaveBaseData_fileAttr_none_iff env.createAllInstance d
      (makeCIdentifier n.name)
  · intro hfail
    refine List.mem_filter.mpr ⟨hn, ?_⟩
    rw [nodeFails_of_data hd, hfail]

/-- **C3, witness.** -/
theorem C3_payload_element_witness :
    ∃ e ∈ (SaveScene goodSaveEnv (some [some surfaceNode])
        (some fixtureStorage) "scene.mitk").manifest,
      e.uid = (lookupA (uidPass fixtureStorage.getSources
          [some surfaceNode]).uids surfaceNode).map uidString ∧
      ∃ de, e.dataElement = some de ∧
        de.typeAttr = (⟨"Surface", ⟨[]⟩⟩ : DataPayload).typeName ∧
        (de.fileAttr = none ↔
          serializeFails goodSaveEnv.createAllInstance ⟨"Surface", ⟨[]⟩⟩
            (makeCIdentifier surfaceNode.name) = true) ∧
        (serializeFails goodSaveEnv.createAllInstance ⟨"Surface", ⟨[]⟩⟩
            (makeCIdentifier surfaceNode.name) = true →
          surfaceNode ∈ (SaveScene goodSaveEnv (some [some surfaceNode])
            (some fixtureStorage) "scene.mitk").failedNodes) :=
  C3_payload_element goodSaveEnv fixtureStorage [some surfaceNode]
    "scene.mitk" rfl rfl (by decide) rfl

/-- **C2.**  When exactly one node of the set is a serialization failure and
every other external step succeeds, `SaveScene` still returns `true`, the
manifest holds one node entry per (non-null) node — each entry carrying that
node's identifier — and the failed-node accumulator holds exactly the one
failing node. -/
theorem C2_partial_failure (env : SaveEnv) (st : Storage)
    (nodes : List (Option DataNode)) (filename : String) (bad : DataNode)
    (hfn : filename.isEmpty = false)
    (htmp : (CreateEmptyTempDirectory env.tempDir).isEmpty = false)
    (h1 : env.saveFileOk = true) (h2 : env.deleteDestThrows = false)
    (h3 : env.zipOpenOk = true) (h4 : env.zipThrows = false)
    (h5 : env.stagingDeleteOk = true)
    (hone : (realNodes nodes).filter (nodeFails env) = [bad]) :
    (SaveScene env (some nodes) (some st) filename).returnValue = true ∧
    (SaveScene env (some nodes) (some st) filename).manifest.length
      = (realNodes nodes).length ∧
    (∀ n ∈ realNodes nodes,
      ∃ e ∈ (SaveScene env (some nodes) (some st) filename).manifest,
        e.uid ≠ none ∧
        e.uid = (lookupA (uidPass st.getSources nodes).uids n).map
          uidString) ∧
    (SaveScene env (some nodes) (some st) filename).failedNodes = [bad] := by
  rw [SaveScene_staged env nodes st filename hfn htmp]
  refine ⟨stagedOutcome_returnValue _ _ h1 h2 h3 h4 h5, ?_, ?_, ?_⟩
  · rw [stagedOutcome_manifest, writePass_eq]
    simp
  · intro n hn
    rw [stagedOutcome_manifest, writePass_eq]
    refine ⟨(writeNode env (uidPass st.getSources nodes) n).1,
      List.mem_map.mpr ⟨n, hn, rfl⟩, ?_, writeNode_uid _ _ _⟩
    obtain ⟨c, hc⟩ := uidPass_coverage st.getSources hn
    rw [writeNode_uid, hc]
    simp
  · rw [stagedOutcome_failedNodes, writePass_eq]
    exact hone

/-- **C2, witness.** -/
theorem C2_partial_failure_witness :
    (SaveScene goodSaveEnv (some [some imageNode, some surfaceNode])
        (some fixtureStorage) "scene.mitk").returnValue = true ∧
    (SaveScene goodSaveEnv (some [some imageNode, some surfaceNode])
        (some fixtureStorage) "scene.mitk").manifest.length
      = (realNodes [some imageNode, some surfaceNode]).length ∧
    (∀ n ∈ realNodes [some imageNode, some surfaceNode],
      ∃ e ∈ (SaveScene goodSaveEnv (some [some imageNode, some surfaceNode])
          (some fixtureStorage) "scene.mitk").manifest,
        e.uid ≠ none ∧
        e.uid = (lookupA (uidPass fixtureStorage.getSources
          [some imageNode, some surfaceNode]).uids n).map uidString) ∧
    (SaveScene goodSaveEnv (some [some imageNode, some surfaceNode])
        (some fixtureStorage) "scene.mitk").failedNodes = [surfaceNode] :=
  C2_partial_failure goodSaveEnv fixtureStorage
    [some imageNode, some surfaceNode] "scene.mitk" surfaceNode
    rfl rfl rfl rfl rfl rfl rfl (by decide)

/-- **C5.**  For a save of a duplicate-free node set: the UID map assigns
exactly one identifier per non-null node (its key list is a permutation of
the persisted nodes); the manifest carries as many identifiers as there are
persisted nodes and they are pairwise distinct; every dependency identifier
in the manifest appears as some entry's own identifier; and the UID map of
any prefix of the pass is a prefix of the final UID map (identifiers, once
assigned, are never reassigned). -/
theorem C5_identifier_uniqueness (env : SaveEnv) (st : Storage)
    (nodes : List (Option DataNode)) (filename : String)
    (hfn : filename.isEmpty = false)
    (htmp : (CreateEmptyTempDirectory env.tempDir).isEmpty = false)
    (hnd : (realNodes nodes).Nodup) :
    (((uidPass st.getSources nodes).uids.map Prod.fst).Perm
        (realNodes nodes)) ∧
    ((SaveScene env (some nodes) (some st) filename).manifest.filterMap
        NodeElement.uid).length = (realNodes nodes).length ∧
    ((SaveScene env (some nodes) (some st) filename).manifest.filterMap
        NodeElement.uid).Nodup ∧
    (∀ e ∈ (SaveScene env (some nodes) (some st) filename).manifest,
      ∀ u ∈ e.sourceUIDs,
        ∃ e₂ ∈ (SaveScene env (some nodes) (some st) filename).manifest,
          e₂.uid = some u) ∧
    (∀ pre suf, nodes = pre ++ suf →
      (uidPassAux st.getSources nodes initUSt pre).uids
        <+: (uidPass st.getSources nodes).uids) := by
  have hUI := uidPass_UInv st.getSources nodes
  have hcov : ∀ n ∈ realNodes nodes,
      ∃ c, lookupA (uidPass st.getSources nodes).uids n = some c :=
    fun n hn => uidPass_coverage st.getSources hn
  have hmanifest : (SaveScene env (some nodes) (some st) filename).manifest
      = (realNodes nodes).map
          (fun n => (writeNode env (uidPass st.getSources nodes) n).1) := by
    rw [SaveScene_staged env nodes st filename hfn htmp,
      stagedOutcome_manifest, writePass_eq]
  have hfm : (SaveScene env (some nodes) (some st) filename).manifest.filterMap
      NodeElement.uid
      = (realNodes nodes).map (fun n =>
          uidString ((lookupA (uidPass st.getSources nodes).uids n).getD 0)) := by
    rw [hmanifest, List.filterMap_map]
    refine filterMap_eq_map_of_forall ?_
    intro n hn
    obtain ⟨c, hc⟩ := hcov n hn
    show (writeNode env (uidPass st.getSources nodes) n).1.uid = _
    rw [writeNode_uid, hc]
    rfl
  refine ⟨?_, ?_, ?_, ?_, ?_⟩
  · refine (List.perm_ext_iff_of_nodup hUI.1 hnd).mpr ?_
    intro a
    constructor
    · intro ha
      obtain ⟨p, hp, he⟩ := List.mem_map.mp ha
      exact he ▸ uidPass_mem hp
    · intro ha
      obtain ⟨c, hc⟩ := hcov a ha
      exact List.mem_map.mpr ⟨(a, c), lookupA_mem hc, rfl⟩
  · rw [hfm, List.length_map]
  · rw [hfm]
    refine List.Nodup.map_on ?_ hnd
    intro x hx y hy he
    obtain ⟨cx, hcx⟩ := hcov x hx
    obtain ⟨cy, hcy⟩ := hcov y hy
    rw [hcx, hcy] at he
    simp only [Option.getD_some] at he
    by_contra hne
    exact uidPass_lookup_inj hcx hcy hne (uidString_injective he)
  · intro e he u hu
    rw [hmanifest] at he
    obtain ⟨n, hn, rfl⟩ := List.mem_map.mp he
    rw [writeNode_sourceUIDs] at hu
    cases hsl : lookupA (uidPass st.getSources nodes).srcs n with
    | none =>
      rw [hsl] at hu
      simp at hu
    | some l =>
      rw [hsl] at hu
      simp only [Option.getD_some] at hu
      obtain ⟨p, hp, hup⟩ := uidPass_SrcInv st.getSources nodes n l hsl u hu
      have hkey : p.1 ∈ realNodes nodes := uidPass_mem hp
      refine ⟨(writeNode env (uidPass st.getSources nodes) p.1).1,
        by rw [hmanifest]; exact List.mem_map.mpr ⟨p.1, hkey, rfl⟩, ?_⟩
      have hlp : lookupA (uidPass st.getSources nodes).uids p.1 = some p.2 :=
        mem_lookupA hUI.1 (by rw [Prod.mk.eta]; exact hp)
      rw [writeNode_uid, hlp, hup]
      rfl
  · intro pre suf hsplit
    subst hsplit
    rw [uidPass, uidPassAux_append]
    exact uidPassAux_uids_extend _ _ _ _

/-- **C5, witness.** -/
theorem C5_identifier_uniqueness_witness :
    (((uidPass fixtureStorage.getSources
        [some surfaceNode, some imageNode]).uids.map Prod.fst).Perm
        (realNodes [some surfaceNode, some imageNode])) ∧
    ((SaveScene goodSaveEnv (some [some surfaceNode, some imageNode])
        (some fixtureStorage) "scene.mitk").manifest.filterMap
        NodeElement.uid).length
      = (realNodes [some surfaceNode, some imageNode]).length ∧
    ((SaveScene goodSaveEnv (some [some surfaceNode, some imageNode])
        (some fixtureStorage) "scene.mitk").manifest.filterMap
        NodeElement.uid).Nodup ∧
    (∀ e ∈ (SaveScene goodSaveEnv (some [some surfaceNode, some imageNode])
        (some fixtureStorage) "scene.mitk").manifest,
      ∀ u ∈ e.sourceUIDs,
        ∃ e₂ ∈ (SaveScene goodSaveEnv
            (some [some surfaceNode, some imageNode])
            (some fixtureStorage) "scene.mitk").manifest,
          e₂.uid = some u) ∧
    (∀ pre suf, [some surfaceNode, some imageNode] = pre ++ suf →
      (uidPassAux fixtureStorage.getSources
          [some surfaceNode, some imageNode] initUSt pre).uids
        <+: (uidPass fixtureStorage.getSources
          [some surfaceNode, some imageNode]).uids) :=
  C5_identifier_uniqueness goodSaveEnv fixtureStorage
    [some surfaceNode, some imageNode] "scene.mitk" rfl rfl (by decide)

/-- **C6.**  Every persisted node's manifest entry records as dependencies
exactly the identifiers of its direct predecessors that are themselves in
the persisted set, in order; when no predecessor is in the set the recorded
dependency list is empty; and a node outside the persisted set is assigned
no identifier at all (a dropped edge is not represented in any form). -/
theorem C6_edge_filtering (env : SaveEnv) (st : Storage)
    (nodes : List (Option DataNode)) (filename : String)
    (hfn : filename.isEmpty = false)
    (htmp : (CreateEmptyTempDirectory env.tempDir).isEmpty = false)
    (hnd : (realNodes nodes).Nodup) (n : DataNode)
    (hn : n ∈ realNodes nodes) :
    (∃ e ∈ (SaveScene env (some nodes) (some st) filename).manifest,
      e.uid = (lookupA (uidPass st.getSources nodes).uids n).map uidString ∧
      e.sourceUIDs
        = ((st.getSources n).filter (fun s => decide (some s ∈ nodes))).map
            (fun s => uidString
              ((lookupA (uidPass st.getSources nodes).uids s).getD 0)) ∧
      ((st.getSources n).filter (fun s => decide (some s ∈ nodes)) = []
        → e.sourceUIDs = [])) ∧
    (∀ s, s ∉ realNodes nodes
      → lookupA (uidPass st.getSources nodes).uids s = none) := by
  constructor
  · refine ⟨(writeNode env (uidPass st.getSources nodes) n).1, ?_,
      writeNode_uid _ _ _, ?_, ?_⟩
    · rw [SaveScene_staged env nodes st filename hfn htmp,
        stagedOutcome_manifest, writePass_eq]
      exact List.mem_map.mpr ⟨n, hn, rfl⟩
    · rw [writeNode_sourceUIDs]
      exact uidPass_srcs_spec hnd hn
    · intro hnil
      rw [writeNode_sourceUIDs, uidPass_srcs_spec hnd hn, hnil]
      rfl
  · intro s hs
    exact uidPass_lookup_outside hs

/-- **C6, witness.** -/
theorem C6_edge_filtering_witness :
    (∃ e ∈ (SaveScene goodSaveEnv (some [some surfaceNode, some imageNode])
        (some fixtureStorage) "scene.mitk").manifest,
      e.uid = (lookupA (uidPass fixtureStorage.getSources
          [some surfaceNode, some imageNode]).uids surfaceNode).map
            uidString ∧
      e.sourceUIDs
        = ((fixtureStorage.getSources surfaceNode).filter
            (fun s => decide (some s ∈ [some surfaceNode, some imageNode]))).map
            (fun s => uidString ((lookupA (uidPass fixtureStorage.getSources
              [some surfaceNode, some imageNode]).uids s).getD 0)) ∧
      ((fixtureStorage.getSources surfaceNode).filter
          (fun s => decide (some s ∈ [some surfaceNode, some imageNode]))
          = [] → e.sourceUIDs = [])) ∧
    (∀ s, s ∉ realNodes [some surfaceNode, some imageNode]
      → lookupA (uidPass fixtureStorage.getSources
          [some surfaceNode, some imageNode]).uids s = none) :=
  C6_edge_filtering goodSaveEnv fixtureStorage
    [some surfaceNode, some imageNode] "scene.mitk" rfl rfl (by decide)
    surfaceNode (by decide)

end SceneIO
